import Mathlib

/-!
Shallow embedding of `src/extract_docx.py`, a one-shot script that extracts
paragraph and table text from a word-processing document, writes the
newline-joined result to a fixed output file, and prints it to the console.

Python strings are modelled as `List Char`; the document object exposed by
the parsing library is modelled by its observable structure (ordered
paragraphs with a `text` attribute, and ordered tables of rows of cells,
each cell with a `text` attribute).
-/

namespace ExtractDocx

/-- A Python string, modelled as a list of characters. -/
abbrev Str := List Char

/-- The ASCII whitespace characters removed by the Python `str.strip` method. -/
def pyIsSpace (c : Char) : Bool :=
  c = ' ' || c = '\t' || c = '\n' || c = '\r' || c = '\x0b' || c = '\x0c'

/-- Python `str.strip` with no argument: remove leading and trailing whitespace. -/
def pyStrip (s : Str) : Str :=
  ((s.dropWhile pyIsSpace).reverse.dropWhile pyIsSpace).reverse

/-- Python truthiness of a string or list: it is truthy iff it is non-empty. -/
def pyTruthy {α : Type} (l : List α) : Bool :=
  !l.isEmpty

/-- A document paragraph; `text` models the `text` attribute (line 7 of the source). -/
structure Paragraph where
  text : Str

/-- A table cell; `text` models the `text` attribute (line 15 of the source). -/
structure Cell where
  text : Str

/-- A table row, an ordered sequence of cells (line 15 of the source). -/
structure Row where
  cells : List Cell

/-- A table, an ordered sequence of rows (line 13 of the source). -/
structure Table where
  rows : List Row

/-- The document: ordered paragraphs and ordered tables, as exposed by the
parsing library via `doc.paragraphs` and `doc.tables`. -/
structure Document where
  paragraphs : List Paragraph
  tables : List Table

/-- Lines 6 to 9 of the source: for each paragraph, if `para.text.strip()` is
truthy, append `para.text` (the original, untrimmed text). -/
def paragraphLines (doc : Document) : List Str :=
  doc.paragraphs.filterMap fun para =>
    if pyTruthy (pyStrip para.text) then some para.text else none

/-- Lines 14 to 17 of the source: the `row_text` list of one row; for each
cell, if `cell.text.strip()` is truthy, append `cell.text.strip()`. -/
def row_text (row : Row) : List Str :=
  row.cells.filterMap fun cell =>
    if pyTruthy (pyStrip cell.text) then some (pyStrip cell.text) else none

/-- The cell delimiter `" | "` of line 19 of the source. -/
def sepStr : Str := [' ', '|', ' ']

/-- Lines 18 to 19 of the source: if `row_text` is truthy, the row yields the
line `' | '.join(row_text)`; otherwise it yields nothing. -/
def rowLine (row : Row) : Option Str :=
  if pyTruthy (row_text row) then some (List.intercalate sepStr (row_text row)) else none

/-- Lines 12 to 19 of the source: all table-derived lines, tables in document
order, rows within each table in order. -/
def tableLines (doc : Document) : List Str :=
  doc.tables.flatMap fun table => table.rows.filterMap rowLine

/-- The `content` list of the source after both loops: paragraph lines first,
then table lines. -/
def content (doc : Document) : List Str :=
  paragraphLines doc ++ tableLines doc

/-- The newline separator used by the join on lines 23 and 29 of the source. -/
def newlineStr : Str := ['\n']

/-- Lines 22 to 23 of the source: the string written to the output file,
namely `'\n'.join(content)`. -/
def fileContent (doc : Document) : Str :=
  List.intercalate newlineStr (content doc)

/-- Python `str.split` with a one-character separator: splits at every
occurrence; the empty string splits to `[""]`. -/
def pySplitNewline (s : Str) : List Str :=
  s.splitOn '\n'

/-- The confirmation message printed on line 25 of the source. -/
def confirmMsg : Str := "Extracted successfully to modul_praktikum.txt".data

/-- The 50-character separator banner built by the expression on lines 26 and 28. -/
def banner : Str := List.replicate 50 '='

/-- The label printed on line 27 of the source. -/
def contentLabel : Str := "CONTENT:".data

/-- Python `print` of one string argument: the string followed by a newline. -/
def pyPrint (s : Str) : Str := s ++ ['\n']

/-- Lines 25 to 29 of the source: everything written to standard output, in order. -/
def consoleOutput (doc : Document) : Str :=
  pyPrint confirmMsg ++
  pyPrint (['\n'] ++ banner) ++
  pyPrint contentLabel ++
  pyPrint (banner ++ ['\n']) ++
  pyPrint (List.intercalate newlineStr (content doc))

/-- The whole run with its fallible collaborators made explicit: opening and
decoding the document may fail, and writing the output file may fail. The
script installs no handler, so the `do` block is plain `Except` sequencing;
on success it returns the string written to the file and the console output. -/
def run (ε : Type) (openResult : Except ε Document)
    (writeResult : Str → Except ε Unit) : Except ε (Str × Str) := do
  let doc ← openResult
  let out := fileContent doc
  let _ ← writeResult out
  pure (out, consoleOutput doc)

/-- The document with no paragraphs and no tables. -/
def emptyDoc : Document := ⟨[], []⟩

/-- A one-paragraph document whose sole line is "Hi". -/
def sampleDoc : Document := ⟨[⟨['H', 'i']⟩], []⟩

/-- A one-paragraph document whose paragraph text has surrounding whitespace. -/
def trimDoc : Document := ⟨[⟨[' ', 'a', ' ']⟩], []⟩

/-- A one-paragraph document whose paragraph text contains a newline. -/
def newlineDoc : Document := ⟨[⟨['a', '\n', 'b']⟩], []⟩

/-- A row with cells " ", "B", "": exactly one cell has non-blank text. -/
def sampleRow : Row := ⟨[⟨[' ']⟩, ⟨['B']⟩, ⟨[]⟩]⟩

/-- A `filterMap` whose function keeps `f x` exactly when `p x` holds is a
filter followed by a map. -/
theorem filterMap_ite {α β : Type} (p : α → Bool) (f : α → β) (l : List α) :
    (l.filterMap fun x => if p x then some (f x) else none) = (l.filter p).map f := by
  induction l with
  | nil => rfl
  | cons a t ih =>
    by_cases h : p a = true <;>
      simp [List.filterMap_cons, List.filter_cons, h, ih]

/-- C1: the paragraph-derived content lines are exactly the paragraphs whose
stripped text is non-empty, in document order, each contributing its text. -/
theorem paragraph_content_lines (doc : Document) :
    paragraphLines doc =
      (doc.paragraphs.filter fun para => pyTruthy (pyStrip para.text)).map
        Paragraph.text := by
  unfold paragraphLines
  exact filterMap_ite _ _ _

/-- A truthy list is exactly a non-empty list. -/
theorem pyTruthy_iff {α : Type} (l : List α) : pyTruthy l = true ↔ l ≠ [] := by
  cases l <;> simp [pyTruthy]

/-- C2: a table row yields an output line iff some cell has non-blank text,
and any line it yields is the trimmed non-blank cell texts, in column order,
joined by the delimiter. -/
theorem rowLine_spec (row : Row) :
    ((rowLine row).isSome ↔ ∃ cell ∈ row.cells, pyTruthy (pyStrip cell.text) = true) ∧
    ∀ l, rowLine row = some l →
      l = List.intercalate sepStr
        ((row.cells.filter fun cell => pyTruthy (pyStrip cell.text)).map
          fun cell => pyStrip cell.text) := by
  have hrt : row_text row =
      (row.cells.filter fun cell => pyTruthy (pyStrip cell.text)).map
        fun cell => pyStrip cell.text := by
    unfold row_text
    exact filterMap_ite _ _ _
  constructor
  · rw [rowLine]
    by_cases h : pyTruthy (row_text row) = true
    · rw [if_pos h]
      simp only [Option.isSome_some, true_iff]
      rw [pyTruthy_iff, hrt] at h
      have hf : row.cells.filter (fun cell => pyTruthy (pyStrip cell.text)) ≠ [] := by
        intro hnil
        exact h (by rw [hnil]; rfl)
      rw [Ne, List.filter_eq_nil_iff] at hf
      push_neg at hf
      rcases hf with ⟨cell, hmem, hcell⟩
      exact ⟨cell, hmem, hcell⟩
    · rw [if_neg h]
      simp only [Option.isSome_none, Bool.false_eq_true, false_iff]
      rintro ⟨cell, hmem, hcell⟩
      apply h
      rw [pyTruthy_iff, hrt]
      intro hnil
      rw [List.map_eq_nil_iff, List.filter_eq_nil_iff] at hnil
      exact hnil cell hmem hcell
  · intro l hl
    rw [rowLine] at hl
    by_cases h : pyTruthy (row_text row) = true
    · rw [if_pos h] at hl
      cases hl
      rw [hrt]
    · rw [if_neg h] at hl
      cases hl

/-- C2 witness: the row with cells " ", "B", "" yields exactly the line "B". -/
theorem rowLine_spec_witness :
    (rowLine sampleRow).isSome ∧ rowLine sampleRow = some ['B'] ∧
    ['B'] = List.intercalate sepStr
      ((sampleRow.cells.filter fun cell => pyTruthy (pyStrip cell.text)).map
        fun cell => pyStrip cell.text) :=
  ⟨(rowLine_spec sampleRow).1.mpr (by decide), by decide,
    (rowLine_spec sampleRow).2 ['B'] (by decide)⟩

/-- C3: the final content is all paragraph lines first, then all table lines,
tables in document order and rows within each table in order; no interleaving
of paragraphs with tables survives. -/
theorem content_structure (doc : Document) :
    content doc =
      paragraphLines doc ++
        (doc.tables.map fun table => table.rows.filterMap rowLine).flatten := by
  rw [content, tableLines, List.flatMap]

/-- C4: the file receives the content lines joined by single newlines, with
no trailing newline appended; a document with no paragraphs and no tables
yields the empty string. -/
theorem fileContent_join (doc : Document) :
    fileContent doc = List.intercalate newlineStr (content doc) ∧
    (doc.paragraphs = [] → doc.tables = [] → fileContent doc = []) := by
  refine ⟨rfl, fun hp ht => ?_⟩
  rw [fileContent, content, paragraphLines, tableLines, hp, ht]
  rfl

/-- C4 witness: the empty document yields the empty output string. -/
theorem fileContent_join_witness :
    emptyDoc.paragraphs = [] ∧ emptyDoc.tables = [] ∧ fileContent emptyDoc = [] :=
  ⟨rfl, rfl, (fileContent_join emptyDoc).2 rfl rfl⟩

/-- C5 counterexample: for the document with the single paragraph " a ", the
emitted line is the untrimmed " a ", not the trimmed "a" the claim states. -/
theorem paragraphLines_not_trimmed :
    ¬ paragraphLines trimDoc =
      (trimDoc.paragraphs.filter fun para => pyTruthy (pyStrip para.text)).map
        fun para => pyStrip para.text := by
  decide

/-- C5 amended: the output has exactly one line per non-blank paragraph, in
original order, each line being the original, untrimmed paragraph text. -/
theorem paragraphLines_per_paragraph (doc : Document) :
    (paragraphLines doc).length =
      (doc.paragraphs.filter fun para => pyTruthy (pyStrip para.text)).length ∧
    ∀ i : Nat, (paragraphLines doc)[i]? =
      ((doc.paragraphs.filter fun para => pyTruthy (pyStrip para.text))[i]?).map
        Paragraph.text := by
  have hEq := filterMap_ite (fun para => pyTruthy (pyStrip para.text))
    Paragraph.text doc.paragraphs
  constructor
  · rw [paragraphLines, hEq, List.length_map]
  · intro i
    rw [paragraphLines, hEq, List.getElem?_map]

/-- C6 counterexample: splitting the written file on newlines does not always
reconstruct the content sequence. For the empty document the file is the
empty string, which splits to a list holding one empty string, not to the
empty content list; and a paragraph whose text contains a newline splits
into two lines. -/
theorem split_join_counterexample :
    pySplitNewline (fileContent emptyDoc) ≠ content emptyDoc ∧
    pySplitNewline (fileContent newlineDoc) ≠ content newlineDoc := by
  decide

/-- C6 amended: for a document with at least one content line, none of whose
content lines contains a newline character, splitting the written file on
newlines exactly reconstructs the content sequence. -/
theorem split_join_roundtrip (doc : Document)
    (hne : content doc ≠ [])
    (hnl : ∀ l ∈ content doc, '\n' ∉ l) :
    pySplitNewline (fileContent doc) = content doc := by
  rw [pySplitNewline, fileContent]
  exact List.splitOn_intercalate _ '\n' hnl hne

/-- C6 witness: the round trip at the one-paragraph document "Hi". -/
theorem split_join_roundtrip_witness :
    content sampleDoc ≠ [] ∧ (∀ l ∈ content sampleDoc, '\n' ∉ l) ∧
    pySplitNewline (fileContent sampleDoc) = content sampleDoc :=
  ⟨by decide, by decide, split_join_roundtrip sampleDoc (by decide) (by decide)⟩

/-- C7: the run is a pure function of the document: equal input documents
give byte-identical file contents and console output, with no dependence on
time or any other runtime state. -/
theorem extractor_deterministic (doc₁ doc₂ : Document) (h : doc₁ = doc₂) :
    fileContent doc₁ = fileContent doc₂ ∧ consoleOutput doc₁ = consoleOutput doc₂ := by
  subst h
  exact ⟨rfl, rfl⟩

/-- C7 witness: determinism at the empty document. -/
theorem extractor_deterministic_witness :
    fileContent emptyDoc = fileContent emptyDoc ∧
    consoleOutput emptyDoc = consoleOutput emptyDoc :=
  extractor_deterministic emptyDoc emptyDoc rfl

/-- C8: the console output is the confirmation line, a blank line, a
50-character "=" banner, the "CONTENT:" label, the banner again, a blank
line, then exactly the text written to the output file. -/
theorem consoleOutput_structure (doc : Document) :
    consoleOutput doc =
      confirmMsg ++ ['\n', '\n'] ++ banner ++ ['\n'] ++ contentLabel ++ ['\n'] ++
        banner ++ ['\n', '\n'] ++ fileContent doc ++ ['\n'] ∧
    banner.length = 50 ∧ ∀ c ∈ banner, c = '=' := by
  refine ⟨?_, by simp [banner], fun c hc => List.eq_of_mem_replicate hc⟩
  simp [consoleOutput, pyPrint, fileContent]

/-- C8 witness: the console output structure at the empty document. -/
theorem consoleOutput_structure_witness :
    consoleOutput emptyDoc =
      confirmMsg ++ ['\n', '\n'] ++ banner ++ ['\n'] ++ contentLabel ++ ['\n'] ++
        banner ++ ['\n', '\n'] ++ fileContent emptyDoc ++ ['\n'] ∧
    banner.length = 50 ∧ ∀ c ∈ banner, c = '=' :=
  consoleOutput_structure emptyDoc

/-- C9: nothing is caught: a failure while opening or decoding the document,
or while writing the output file, propagates unmodified as the result of the
run, and only a successful write yields the extracted output. -/
theorem run_propagates_errors {ε : Type} (doc : Document) (e : ε)
    (writeResult : Str → Except ε Unit) :
    run ε (Except.error e) writeResult = Except.error e ∧
    (writeResult (fileContent doc) = Except.error e →
      run ε (Except.ok doc) writeResult = Except.error e) ∧
    (writeResult (fileContent doc) = Except.ok () →
      run ε (Except.ok doc) writeResult =
        Except.ok (fileContent doc, consoleOutput doc)) := by
  refine ⟨rfl, fun hw => ?_, fun hw => ?_⟩ <;>
    simp [run, Except.bind, bind, hw, pure, Except.pure]

/-- C9 witness: error propagation at concrete collaborators over `Nat` errors. -/
theorem run_propagates_errors_witness :
    run Nat (Except.error 7) (fun _ => Except.ok ()) = Except.error 7 ∧
    run Nat (Except.ok emptyDoc) (fun _ => Except.error 7) = Except.error 7 ∧
    run Nat (Except.ok emptyDoc) (fun _ => Except.ok ()) =
      Except.ok (fileContent emptyDoc, consoleOutput emptyDoc) :=
  ⟨(@run_propagates_errors Nat emptyDoc 7 (fun _ => Except.ok ())).1,
    (@run_propagates_errors Nat emptyDoc 7 (fun _ => Except.error 7)).2.1 rfl,
    (@run_propagates_errors Nat emptyDoc 7 (fun _ => Except.ok ())).2.2 rfl⟩

/-- An element not satisfying the predicate survives `dropWhile`. -/
theorem mem_dropWhile_of_neg {α : Type} {p : α → Bool} {c : α} {l : List α}
    (hc : c ∈ l) (hp : ¬ p c = true) : c ∈ l.dropWhile p := by
  have hsplit : l.takeWhile p ++ l.dropWhile p = l := List.takeWhile_append_dropWhile p l
  rw [← hsplit] at hc
  rcases List.mem_append.mp hc with h | h
  · exact absurd (List.mem_takeWhile_imp h) hp
  · exact h

/-- The strip of a string is empty exactly when every character is whitespace. -/
theorem pyStrip_eq_nil_iff (s : Str) :
    pyStrip s = [] ↔ ∀ c ∈ s, pyIsSpace c = true := by
  unfold pyStrip
  rw [List.reverse_eq_nil_iff, List.dropWhile_eq_nil_iff]
  constructor
  · intro h c hc
    by_cases hp : pyIsSpace c = true
    · exact hp
    · exact absurd (h c (List.mem_reverse.mpr (mem_dropWhile_of_neg hc hp))) (by simp [hp])
  · intro h c hc
    apply h
    have hmem : c ∈ s.dropWhile pyIsSpace := List.mem_reverse.mp hc
    have hsplit : s.takeWhile pyIsSpace ++ s.dropWhile pyIsSpace = s :=
      List.takeWhile_append_dropWhile pyIsSpace s
    rw [← hsplit]
    exact List.mem_append.mpr (Or.inr hmem)

/-- A non-empty stripped string contains a non-whitespace character. -/
theorem exists_not_space_of_strip_ne_nil {s : Str} (h : pyStrip s ≠ []) :
    ∃ c ∈ pyStrip s, pyIsSpace c = false := by
  have hne : ((s.dropWhile pyIsSpace).reverse.dropWhile pyIsSpace) ≠ [] := by
    intro hnil
    apply h
    rw [pyStrip, hnil]
    rfl
  refine ⟨((s.dropWhile pyIsSpace).reverse.dropWhile pyIsSpace).head hne, ?_, ?_⟩
  · rw [pyStrip, List.mem_reverse]
    exact List.head_mem hne
  · have := List.head_dropWhile_not pyIsSpace (s.dropWhile pyIsSpace).reverse hne
    simpa using this

/-- The join of a non-empty list of strings starts with its first string. -/
theorem intercalate_cons_eq_append (sep x : Str) (rest : List Str) :
    ∃ t, List.intercalate sep (x :: rest) = x ++ t := by
  cases rest with
  | nil => exact ⟨[], rfl⟩
  | cons y ys =>
    exact ⟨sep ++ (List.intersperse sep (y :: ys)).flatten, rfl⟩

/-- C10: every entry of the content sequence has non-empty stripped text;
no empty or whitespace-only line is ever appended. -/
theorem content_entries_nonblank (doc : Document) :
    ∀ l ∈ content doc, pyTruthy (pyStrip l) = true := by
  intro l hl
  rw [content, List.mem_append] at hl
  rcases hl with hl | hl
  · rw [paragraphLines] at hl
    rcases List.mem_filterMap.mp hl with ⟨para, _, hsome⟩
    by_cases hp : pyTruthy (pyStrip para.text) = true
    · rw [if_pos hp] at hsome
      cases hsome
      exact hp
    · rw [if_neg hp] at hsome
      cases hsome
  · rw [tableLines] at hl
    rcases List.mem_flatMap.mp hl with ⟨table, _, hrow⟩
    rcases List.mem_filterMap.mp hrow with ⟨row, _, hsome⟩
    rw [rowLine] at hsome
    by_cases hp : pyTruthy (row_text row) = true
    · rw [if_pos hp] at hsome
      cases hsome
      rw [pyTruthy_iff] at hp ⊢
      obtain ⟨x, rest, hxr⟩ : ∃ x rest, row_text row = x :: rest := by
        cases hxr : row_text row with
        | nil => exact absurd hxr hp
        | cons x rest => exact ⟨x, rest, rfl⟩
      have hx : x ∈ row_text row := by
        rw [hxr]
        exact List.mem_cons_self x rest
      rcases List.mem_filterMap.mp hx with ⟨cell, _, hcell⟩
      by_cases hc : pyTruthy (pyStrip cell.text) = true
      · rw [if_pos hc] at hcell
        cases hcell
        rw [pyTruthy_iff] at hc
        rcases exists_not_space_of_strip_ne_nil hc with ⟨c, hcmem, hcspace⟩
        rcases intercalate_cons_eq_append sepStr (pyStrip cell.text) rest with ⟨t, ht⟩
        rw [hxr, ht]
        intro hnil
        rw [pyStrip_eq_nil_iff] at hnil
        have : pyIsSpace c = true :=
          hnil c (List.mem_append.mpr (Or.inl hcmem))
        rw [this] at hcspace
        cases hcspace
      · rw [if_neg hc] at hcell
        cases hcell
    · rw [if_neg hp] at hsome
      cases hsome

/-- C10 witness: the invariant at the one-paragraph document "Hi". -/
theorem content_entries_nonblank_witness :
    (['H', 'i'] ∈ content sampleDoc) ∧ pyTruthy (pyStrip ['H', 'i']) = true :=
  ⟨by decide, content_entries_nonblank sampleDoc ['H', 'i'] (by decide)⟩

end ExtractDocx
